import Mathlib

/-!
Verification of the grove daemon (instance supervisor) against its
natural-language specification.  The Go sources are shallowly embedded:
pure fragments become Lean functions, handler bodies become functions on an
explicit instance/registry state, machine bytes are `Nat` with explicit
`% 256`, and I/O results (project loading, container command execution,
randomness) are passed in as explicit parameters.
-/

namespace Grove

/-- Instance lifecycle states, from the `proto` package state constants
(`StateRunning` … `StateFinished`). -/
inductive InstanceState : Type
| RUNNING
| WAITING
| ATTACHED
| CHECKING
| EXITED
| CRASHED
| KILLED
| FINISHED
deriving DecidableEq, Repr

open InstanceState

/-- Modelled from the spec: `proto.IsTerminal` (the `proto/messages.go`
source is not in the tree; §4.2 lists the terminal states as `EXITED`,
`CRASHED`, `KILLED`, `FINISHED`). -/
def IsTerminal : InstanceState → Bool
| EXITED => true
| CRASHED => true
| KILLED => true
| FINISHED => true
| _ => false

/-- The persisted metadata record / public summary (`proto.InstanceInfo`):
id, project, branch, worktree-dir, container-id, compose-project,
created-at, ended-at (epoch seconds, `0` = unset), state. -/
structure InstanceInfo : Type where
  ID : String
  Project : String
  Branch : String
  WorktreeDir : String
  ContainerID : String
  ComposeProject : String
  CreatedAt : Nat
  EndedAt : Nat
  State : InstanceState
deriving DecidableEq, Repr

/-- The in-daemon instance record (`daemon.Instance`): identity and binding
fields plus the runtime-only fields used by the handlers (state tag,
last-output timestamp in milliseconds, kill / finish flags, whether the
child process is alive).  File handles and sinks are not modelled. -/
structure Instance : Type where
  ID : String
  Project : String
  Branch : String
  WorktreeDir : String
  ContainerID : String
  ComposeProject : String
  CreatedAt : Nat
  endedAt : Option Nat
  state : InstanceState
  lastOutputTime : Nat
  killed : Bool
  finishRequest : Bool
  childAlive : Bool
deriving DecidableEq, Repr

/-- One step of `Daemon.loadPersistedInstances`: the state and ended-at
that a persisted record is re-registered with.  The daemon rewrites
`RUNNING`, `WAITING` and `ATTACHED` to `CRASHED` with ended-at = now;
every other persisted state (and its recorded ended-at, `0` meaning
unset) is kept as-is. -/
def reloadStateEnded (now : Nat) (info : InstanceInfo) :
    InstanceState × Option Nat :=
  let ended0 : Option Nat := if info.EndedAt > 0 then some info.EndedAt else none
  if info.State = RUNNING ∨ info.State = WAITING ∨ info.State = ATTACHED then
    (CRASHED, some now)
  else
    (info.State, ended0)

/-- `Daemon.loadPersistedInstances`, per record: builds the in-memory
`Instance` from a persisted `InstanceInfo` (runtime-only fields start
cleared; the child of a reloaded instance is never alive). -/
def reloadRecord (now : Nat) (info : InstanceInfo) : Instance :=
  let se := reloadStateEnded now info
  { ID := info.ID
    Project := info.Project
    Branch := info.Branch
    WorktreeDir := info.WorktreeDir
    ContainerID := info.ContainerID
    ComposeProject := info.ComposeProject
    CreatedAt := info.CreatedAt
    endedAt := se.2
    state := se.1
    lastOutputTime := 0
    killed := false
    finishRequest := false
    childAlive := false }

/-- `Daemon.loadPersistedInstances` over the whole `instances/` directory:
every successfully parsed record is re-registered through `reloadRecord`
(I/O failures merely skip entries and are not modelled). -/
def loadPersistedInstances (now : Nat) (records : List InstanceInfo) :
    List Instance :=
  records.map (reloadRecord now)

/-! ### Dotenv loader (`internal/envfile`) -/

/-- ASCII whitespace as recognised by Go's `strings.TrimSpace`
(`unicode.IsSpace` on ASCII input: space, tab, newline, vertical tab,
form feed, carriage return). -/
def isSpaceGo (c : Char) : Bool :=
  c = ' ' || c = '\t' || c = '\n' || c = '\x0b' || c = '\x0c' || c = '\r'

/-- `strings.TrimSpace`: drop leading and trailing whitespace. -/
def trimSpace (s : List Char) : List Char :=
  List.rdropWhile isSpaceGo (s.dropWhile isSpaceGo)

/-- `strings.Cut(line, "=")`: split at the first `'='`; `none` when the
line has no `'='`. -/
def cutEq : List Char → Option (List Char × List Char)
| [] => none
| c :: rest =>
  if c = '=' then some ([], rest)
  else
    match cutEq rest with
    | none => none
    | some (a, b) => some (c :: a, b)

/-- Go map assignment `env[k] = v`, observed as an association list:
replaces the binding of `k` when present, appends it otherwise. -/
def setKV : List (List Char × List Char) → List Char → List Char →
    List (List Char × List Char)
| [], k, v => [(k, v)]
| (k0, v0) :: rest, k, v =>
  if k0 = k then (k, v) :: rest else (k0, v0) :: setKV rest k v

/-- One scanner iteration of `envfile.Load`: trim the line, skip blanks and
`#` comments, skip lines without `'='`, otherwise cut at the first `'='`
and store the trimmed key and value. -/
def loadLine (env : List (List Char × List Char)) (raw : List Char) :
    List (List Char × List Char) :=
  let line := trimSpace raw
  if line = [] ∨ line.head? = some '#' then env
  else
    match cutEq line with
    | none => env
    | some (k, v) => setKV env (trimSpace k) (trimSpace v)

/-- `envfile.Load`: `none` models a file that cannot be opened (an empty
map is returned, not an error); `some lines` models the scanner's lines. -/
def envfileLoad (file : Option (List (List Char))) :
    List (List Char × List Char) :=
  match file with
  | none => []
  | some lines => lines.foldl loadLine []

/-! ### Instance ID allocation (`Daemon.nextInstanceID`) -/

/-- `daemon.idAlphabet`: the ordered set of characters used to build
instance IDs (digits 1-9, then a-z). -/
def idAlphabet : List String :=
  ["1", "2", "3", "4", "5", "6", "7", "8", "9",
   "a", "b", "c", "d", "e", "f", "g", "h", "i", "j", "k", "l", "m",
   "n", "o", "p", "q", "r", "s", "t", "u", "v", "w", "x", "y", "z"]

/-- The two-character fallback pool, in the order of the nested loops of
`nextInstanceID` (`a ++ b` for `a` then `b` over `idAlphabet`). -/
def twoCharIDs : List String :=
  idAlphabet.flatMap (fun a => idAlphabet.map (fun b => a ++ b))

/-- One lowercase hex digit, as produced by Go's `encoding/hex`. -/
def hexDigit (n : Nat) : Char :=
  if n < 10 then Char.ofNat (48 + n) else Char.ofNat (87 + n)

/-- `hex.EncodeToString` over a byte list (each byte `% 256`, high nibble
first). -/
def hexEncodeToString (bs : List Nat) : String :=
  String.mk (bs.flatMap (fun b => [hexDigit (b % 256 / 16), hexDigit (b % 16)]))

/-- `Daemon.nextInstanceID`: the lowest unused single-character ID, else
the lowest unused two-character combination, else the hex encoding of
4 random bytes (the randomness is passed in as `rnd`).  The registry's
key set is passed in as `taken`. -/
def nextInstanceID (taken : List String) (rnd : List Nat) : String :=
  match idAlphabet.find? (fun id => !(taken.contains id)) with
  | some id => id
  | none =>
    match twoCharIDs.find? (fun id => !(taken.contains id)) with
    | some id => id
    | none => hexEncodeToString rnd

/-- A sequence of `n` allocations in which each allocated ID is registered
before the next allocation, starting from registry key set `taken`. -/
def allocFrom (rnd : List Nat) (taken : List String) : Nat → List String
| 0 => []
| Nat.succ n =>
  let id := nextInstanceID taken rnd
  id :: allocFrom rnd (taken ++ [id]) n

/-! ### Attach framing (`proto.WriteFrame` / `proto.ReadFrame`) -/

/-- Big-endian 32-bit encoding of a length (`binary.BigEndian.PutUint32`). -/
def be32 (n : Nat) : List Nat :=
  [n / 16777216 % 256, n / 65536 % 256, n / 256 % 256, n % 256]

/-- Big-endian 32-bit decoding (`binary.BigEndian.Uint32`). -/
def fromBE32 (b0 b1 b2 b3 : Nat) : Nat :=
  ((b0 * 256 + b1) * 256 + b2) * 256 + b3

/-- Modelled from the spec: `proto.WriteFrame` (the `proto/messages.go`
source is not in the tree; §4.1: one type byte, then a big-endian 32-bit
payload length, then the payload). -/
def WriteFrame (t : Nat) (payload : List Nat) : List Nat :=
  t % 256 :: (be32 payload.length ++ payload)

/-- Modelled from the spec: `proto.ReadFrame` (the `proto/messages.go`
source is not in the tree): reads one type byte, a big-endian 32-bit
length, and exactly that many payload bytes; returns the frame type, the
payload, and the unread remainder of the stream, or `none` when the
stream is too short. -/
def ReadFrame (stream : List Nat) : Option (Nat × List Nat × List Nat) :=
  match stream with
  | t :: b0 :: b1 :: b2 :: b3 :: rest =>
    let len := fromBE32 b0 b1 b2 b3
    if len ≤ rest.length then some (t, (rest.take len, rest.drop len))
    else none
  | _ => none

/-! ### Responses and instance summaries -/

/-- `proto.Response`: `ok`, `error`, `instanceID`, `instances`,
`initPath`, `worktreeDir`, `branch`. -/
structure Response : Type where
  ok : Bool
  error : String
  instanceID : String
  instances : List InstanceInfo
  initPath : String
  worktreeDir : String
  branch : String
deriving DecidableEq, Repr

/-- The zero `Response` (all fields unset). -/
def emptyResp : Response := ⟨false, "", "", [], "", "", ""⟩

/-- A bare `OK` response. -/
def okResp : Response := { emptyResp with ok := true }

/-- An error response carrying `msg`. -/
def errResp (msg : String) : Response := { emptyResp with error := msg }

/-- An `OK` response carrying a worktree directory and branch, as sent by
`handleFinish`. -/
def okWB (wd br : String) : Response :=
  { emptyResp with ok := true, worktreeDir := wd, branch := br }

/-- The wire name of each state, used in error messages. -/
def stateName : InstanceState → String
| RUNNING => "RUNNING"
| WAITING => "WAITING"
| ATTACHED => "ATTACHED"
| CHECKING => "CHECKING"
| EXITED => "EXITED"
| CRASHED => "CRASHED"
| KILLED => "KILLED"
| FINISHED => "FINISHED"

/-- Modelled from the spec: `Instance.Info` (instance.go is not in the
tree; §4.5 `LIST` and the tests `TestInfoWaitingPromotion`,
`TestInfoRunningWhenRecentOutput`, `TestInfoNonRunningStateUnchanged`):
the public summary of an instance, promoting `RUNNING` to `WAITING` when
the instance has produced no output for more than 2 seconds; every other
state is reported unchanged.  Times are in milliseconds. -/
def Instance.Info (now : Nat) (i : Instance) : InstanceInfo :=
  { ID := i.ID
    Project := i.Project
    Branch := i.Branch
    WorktreeDir := i.WorktreeDir
    ContainerID := i.ContainerID
    ComposeProject := i.ComposeProject
    CreatedAt := i.CreatedAt
    EndedAt :=
      match i.endedAt with
      | none => 0
      | some t => t
    State :=
      if i.state = RUNNING ∧ now - i.lastOutputTime > 2000 then WAITING
      else i.state }

/-- `Daemon.handleList`: snapshot every instance's summary and sort by
creation time ascending. -/
def handleList (now : Nat) (instances : List Instance) : Response :=
  let infos := (instances.map (Instance.Info now)).mergeSort
    (fun a b => decide (a.CreatedAt ≤ b.CreatedAt))
  { emptyResp with ok := true, instances := infos }

/-! ### STOP and exit observation -/

/-- Modelled from the spec: `Instance.destroy` (instance.go is not in the
tree; §4.3 kill/destroy and the data model's "kill requested" flag):
records the kill request and sends a terminating signal to the child's
process group; idempotent. -/
def Instance.destroy (i : Instance) : Instance := { i with killed := true }

/-- Modelled from the spec: the exit observer (instance.go is not in the
tree; §4.3): when the child exits, the resulting state is `FINISHED` if a
finish was requested, else `KILLED` if a kill was requested, else
`EXITED` on exit status zero, else `CRASHED`; ended-at is recorded. -/
def observeExit (status now : Nat) (i : Instance) : Instance :=
  { i with
    childAlive := false
    endedAt := some now
    state :=
      if i.finishRequest then FINISHED
      else if i.killed then KILLED
      else if status = 0 then EXITED
      else CRASHED }

/-- `Daemon.handleStop` on an existing instance: destroy (kill) the child
and respond `OK` immediately; the terminal transition is left to the exit
observer. -/
def handleStop (i : Instance) : Instance × Response := (i.destroy, okResp)

/-! ### FINISH -/

/-- `strings.ReplaceAll` over character lists: scan left to right; wherever
the (non-empty) pattern matches, emit the replacement and skip the match,
otherwise keep the character. -/
def replaceAllChars (pat rep : List Char) : List Char → List Char
| [] => []
| c :: rest =>
  if h : pat ≠ [] ∧ pat.isPrefixOf (c :: rest) then
    rep ++ replaceAllChars pat rep ((c :: rest).drop pat.length)
  else
    c :: replaceAllChars pat rep rest
termination_by s => s.length
decreasing_by
· have hp : 0 < pat.length := List.length_pos.mpr h.1
  simp only [List.length_drop, List.length_cons]
  omega
· simp

/-- The `{{branch}}` placeholder recognised in finish commands (written
with escaped braces). -/
def branchPlaceholder : String := "\x7b\x7bbranch\x7d\x7d"

/-- `strings.ReplaceAll(cmd, branchPlaceholder, branch)`. -/
def expandBranch (branch cmd : String) : String :=
  String.mk (replaceAllChars branchPlaceholder.data branch.data cmd.data)

/-- The environment `handleFinish` and its command loop run against:
whether `loadProject` succeeds, the configured finish command list, and
the container-execution outcome of each (expanded) command — its success,
its streamed output, and its error text. -/
structure FinishEnv : Type where
  projectOk : Bool
  finishCmds : List String
  execOk : String → Bool
  cmdOutput : String → String
  errMsg : String → String

/-- The echo line written before each finish/check command. -/
def echoLine (ex : String) : String := "$ " ++ ex ++ "\n"

/-- The error line written after a failed finish command. -/
def errorLine (env : FinishEnv) (ex : String) : String :=
  "error: command failed: " ++ env.errMsg ex ++ "\n"

/-- The finish-command loop of `handleFinish`: expand `{{branch}}` in each
command, echo it, run it in the container; a failing command appends an
error line and ends the loop. -/
def runFinishCmds (env : FinishEnv) (branch : String) :
    List String → List String
| [] => []
| c :: rest =>
  let ex := expandBranch branch c
  if env.execOk ex then
    echoLine ex :: env.cmdOutput ex :: runFinishCmds env branch rest
  else
    [echoLine ex, env.cmdOutput ex, errorLine env ex]

/-- What `handleFinish` produces: the response, the instance afterwards,
whether its metadata was persisted, and everything streamed to the
client/log after the acknowledgement. -/
structure FinishResult : Type where
  resp : Response
  inst : Instance
  persisted : Bool
  out : List String

/-- The tail of `handleFinish` after the state transition: persist, send
`OK` with worktree and branch, then run the finish commands (or only a
warning line when the project cannot be loaded; the exact warning text is
abstracted). -/
def finishTail (env : FinishEnv) (j : Instance) : FinishResult :=
  { resp := okWB j.WorktreeDir j.Branch
    inst := j
    persisted := true
    out :=
      if env.projectOk then runFinishCmds env j.Branch env.finishCmds
      else ["warning: could not load project to run finish commands\n"] }

/-- `Daemon.handleFinish` on an existing instance: an instance in
`EXITED`/`CRASHED`/`KILLED` is promoted to `FINISHED` directly; an
instance already `FINISHED` is acknowledged without running the finish
commands; otherwise the child is alive — the finish request is recorded,
the child killed, and its observed exit (with `finish_requested` set)
yields `FINISHED`. -/
def handleFinish (env : FinishEnv) (now exitStatus : Nat) (i : Instance) :
    FinishResult :=
  match i.state with
  | EXITED | CRASHED | KILLED => finishTail env { i with state := FINISHED }
  | FINISHED =>
    { resp := okWB i.WorktreeDir i.Branch
      inst := i
      persisted := false
      out := [] }
  | _ =>
    finishTail env
      (observeExit exitStatus now (Instance.destroy { i with finishRequest := true }))

/-! ### CHECK -/

/-- The environment `handleCheck` runs against: whether `loadProject`
succeeds and the configured check command list. -/
structure CheckEnv : Type where
  projectOk : Bool
  checkCmds : List String

/-- What `handleCheck` produces: the response, the state the instance
holds while the handler body runs (after the guard section), and the
state it is left in when the handler returns. -/
structure CheckResult : Type where
  resp : Response
  mid : InstanceState
  final : InstanceState

/-- `Daemon.handleCheck` on an existing instance: reject if the state is
terminal or already `CHECKING`; otherwise transition to `CHECKING`, with
a deferred revert to `WAITING` on every return path.  After the guard the
handler may still fail — project load error (message abstracted) or no
configured check commands — responding with an error while the deferred
revert leaves the instance `WAITING`.  On success the commands run and
completion reverts to `WAITING`. -/
def handleCheck (env : CheckEnv) (i : Instance) : CheckResult :=
  if IsTerminal i.state = true ∨ i.state = CHECKING then
    { resp := errResp ("cannot check: instance is " ++ stateName i.state)
      mid := i.state
      final := i.state }
  else if env.projectOk = false then
    { resp := errResp ("project load failed")
      mid := CHECKING
      final := WAITING }
  else if env.checkCmds = [] then
    { resp := errResp ("no check commands defined in grove.yaml")
      mid := CHECKING
      final := WAITING }
  else
    { resp := okResp
      mid := CHECKING
      final := WAITING }

/-! ### Concrete sample data used by witnesses and counterexamples -/

/-- A live instance in state `RUNNING` that has been idle since time 0. -/
def sampleLive : Instance :=
  { ID := "1"
    Project := "my-app"
    Branch := "feature"
    WorktreeDir := "/root/.grove/projects/my-app/worktrees/1"
    ContainerID := "grove-1"
    ComposeProject := ""
    CreatedAt := 10
    endedAt := none
    state := RUNNING
    lastOutputTime := 0
    killed := false
    finishRequest := false
    childAlive := true }

/-- An instance whose child already exited normally. -/
def exitedInst : Instance :=
  { sampleLive with state := EXITED, childAlive := false, endedAt := some 20 }

/-- A persisted record whose state is `CHECKING`. -/
def checkingRec : InstanceInfo :=
  { ID := "1"
    Project := "my-app"
    Branch := "feature"
    WorktreeDir := "/root/.grove/projects/my-app/worktrees/1"
    ContainerID := "grove-1"
    ComposeProject := ""
    CreatedAt := 10
    EndedAt := 0
    State := CHECKING }

/-- A persisted record whose state is `RUNNING`. -/
def runningRec : InstanceInfo := { checkingRec with State := RUNNING }

/-- A check environment with a loadable project but no check commands. -/
def checkEnvNoCmds : CheckEnv := ⟨true, []⟩

/-- A check environment with a loadable project and one check command. -/
def checkEnvGood : CheckEnv := ⟨true, ["go test"]⟩

/-- A finish environment in which every container command fails. -/
def envAllFail : FinishEnv :=
  ⟨true, ["git push"], fun _ => false, fun _ => "", fun _ => "boom"⟩

/-- A finish environment in which every container command succeeds. -/
def envAllOk : FinishEnv :=
  ⟨true, ["git push"], fun _ => true, fun _ => "", fun _ => ""⟩

/-!
## Claims
-/

/-- Claim C1: for every instance whose child is alive (and on which no
finish has been requested), a `STOP` request responds `OK` immediately,
and when the child subsequently exits — with any status — the exit
observer's terminal transition is `KILLED`, because a kill was
requested. -/
theorem stop_ok_then_killed (i : Instance) (status now : Nat)
    (halive : i.childAlive = true) (hfin : i.finishRequest = false) :
    (handleStop i).2.ok = true ∧
    (observeExit status now (handleStop i).1).state = KILLED := by
  refine ⟨rfl, ?_⟩
  simp [handleStop, Instance.destroy, observeExit, hfin]

/-- Witness for C1 at a concrete live instance. -/
theorem stop_ok_then_killed_witness :
    sampleLive.childAlive = true ∧ sampleLive.finishRequest = false ∧
    ((handleStop sampleLive).2.ok = true ∧
      (observeExit 0 30 (handleStop sampleLive).1).state = KILLED) :=
  ⟨rfl, rfl, stop_ok_then_killed sampleLive 0 30 rfl rfl⟩

/-- Claim C2 counterexample: a persisted record in the non-terminal state
`CHECKING` is preserved verbatim by the reload — it is not rewritten to
`CRASHED`, so after reload an instance is registered in state
`CHECKING`. -/
theorem reload_checking_preserved_cex :
    (loadPersistedInstances 100 [checkingRec]).map Instance.state =
      [CHECKING] ∧
    CHECKING ≠ CRASHED ∧ IsTerminal CHECKING = false := by
  refine ⟨rfl, by decide, rfl⟩

/-- Claim C2 (amended): on daemon startup, a persisted state of `RUNNING`,
`WAITING` or `ATTACHED` is rewritten to `CRASHED` with ended-at set to
the current time; every other persisted state — the terminal
`FINISHED`/`EXITED`/`CRASHED`/`KILLED` and also `CHECKING` — is preserved
verbatim; after reload no registered instance is in state `RUNNING`,
`WAITING` or `ATTACHED`. -/
theorem reload_rewrites_non_terminal (now : Nat) (records : List InstanceInfo) :
    (∀ info ∈ records,
      ((info.State = RUNNING ∨ info.State = WAITING ∨ info.State = ATTACHED) →
        (reloadRecord now info).state = CRASHED ∧
        (reloadRecord now info).endedAt = some now) ∧
      (¬(info.State = RUNNING ∨ info.State = WAITING ∨ info.State = ATTACHED) →
        (reloadRecord now info).state = info.State ∧
        (reloadRecord now info).endedAt =
          (if info.EndedAt > 0 then some info.EndedAt else none))) ∧
    (∀ j ∈ loadPersistedInstances now records,
      j.state ≠ RUNNING ∧ j.state ≠ WAITING ∧ j.state ≠ ATTACHED) := by
  constructor
  · intro info _
    constructor
    · intro hcase
      simp [reloadRecord, reloadStateEnded, if_pos hcase]
    · intro hcase
      simp [reloadRecord, reloadStateEnded, if_neg hcase]
  · intro j hj
    simp only [loadPersistedInstances, List.mem_map] at hj
    obtain ⟨info, _, rfl⟩ := hj
    by_cases hcase : info.State = RUNNING ∨ info.State = WAITING ∨
        info.State = ATTACHED
    · simp [reloadRecord, reloadStateEnded, if_pos hcase]
    · push_neg at hcase
      simp [reloadRecord, reloadStateEnded, hcase.1, hcase.2.1, hcase.2.2]

/-- Witness for the amended C2 at a concrete `RUNNING` record. -/
theorem reload_rewrites_non_terminal_witness :
    (reloadRecord 100 runningRec).state = CRASHED ∧
    (reloadRecord 100 runningRec).endedAt = some 100 :=
  ((reload_rewrites_non_terminal 100 [runningRec]).1 runningRec
    (by simp)).1 (Or.inl rfl)

/-- Claim C10: when a `CHECK` request passes the state guard but fails
before any command runs — project load failure or no configured check
commands — the handler responds with an error, the instance had been
moved to `CHECKING`, and the deferred revert leaves it in `WAITING`
rather than restoring the state it held before the request. -/
theorem check_error_path_leaves_waiting (env : CheckEnv) (i : Instance)
    (hguard : ¬(IsTerminal i.state = true ∨ i.state = CHECKING))
    (hfail : env.projectOk = false ∨ env.checkCmds = []) :
    (handleCheck env i).resp.ok = false ∧
    (handleCheck env i).mid = CHECKING ∧
    (handleCheck env i).final = WAITING := by
  unfold handleCheck
  rw [if_neg hguard]
  rcases hfail with hf | hf
  · rw [if_pos hf]
    exact ⟨rfl, rfl, rfl⟩
  · by_cases hp : env.projectOk = false
    · rw [if_pos hp]
      exact ⟨rfl, rfl, rfl⟩
    · rw [if_neg hp, if_pos hf]
      exact ⟨rfl, rfl, rfl⟩

/-- Witness for C10: a `RUNNING` instance checked with no configured check
commands ends up `WAITING` with an error response. -/
theorem check_error_path_leaves_waiting_witness :
    (handleCheck checkEnvNoCmds sampleLive).resp.ok = false ∧
    (handleCheck checkEnvNoCmds sampleLive).mid = CHECKING ∧
    (handleCheck checkEnvNoCmds sampleLive).final = WAITING :=
  check_error_path_leaves_waiting checkEnvNoCmds sampleLive (by decide)
    (Or.inr rfl)

/-- Claim C5 counterexample: a `CHECK` on a `RUNNING` instance — a state
neither terminal nor `CHECKING` — is still rejected with an error
response when no check commands are configured, so rejection is not
equivalent to the state being terminal or `CHECKING`. -/
theorem check_reject_iff_cex :
    (handleCheck checkEnvNoCmds sampleLive).resp.ok = false ∧
    IsTerminal sampleLive.state = false ∧ sampleLive.state ≠ CHECKING := by
  refine ⟨rfl, rfl, by decide⟩

/-- Claim C5 (amended): a `CHECK` on an existing instance is rejected
whenever the state is terminal or already `CHECKING` (leaving the state
untouched); when the guard passes it may additionally be rejected because
the project cannot be loaded or no check commands are configured, so the
request is accepted exactly when the guard passes, the project loads and
a check command is configured; when accepted, the instance transitions to
`CHECKING` and, once all check commands have completed, back to
`WAITING`. -/
theorem check_guard_and_accept (env : CheckEnv) (i : Instance) :
    ((IsTerminal i.state = true ∨ i.state = CHECKING) →
      (handleCheck env i).resp.ok = false ∧
      (handleCheck env i).final = i.state) ∧
    ((handleCheck env i).resp.ok = true ↔
      (¬(IsTerminal i.state = true ∨ i.state = CHECKING) ∧
        env.projectOk = true ∧ env.checkCmds ≠ [])) ∧
    ((handleCheck env i).resp.ok = true →
      (handleCheck env i).mid = CHECKING ∧
      (handleCheck env i).final = WAITING) := by
  by_cases hg : IsTerminal i.state = true ∨ i.state = CHECKING
  · refine ⟨fun _ => ?_, ?_, ?_⟩
    · unfold handleCheck
      rw [if_pos hg]
      exact ⟨rfl, rfl⟩
    · unfold handleCheck
      rw [if_pos hg]
      simp [errResp, emptyResp, hg]
    · unfold handleCheck
      rw [if_pos hg]
      intro hok
      simp [errResp, emptyResp] at hok
  · by_cases hp : env.projectOk = false
    · refine ⟨fun hg2 => absurd hg2 hg, ?_, ?_⟩
      · unfold handleCheck
        rw [if_neg hg, if_pos hp]
        simp [errResp, emptyResp, hp]
      · unfold handleCheck
        rw [if_neg hg, if_pos hp]
        intro hok
        simp [errResp, emptyResp] at hok
    · by_cases hc : env.checkCmds = []
      · refine ⟨fun hg2 => absurd hg2 hg, ?_, ?_⟩
        · unfold handleCheck
          rw [if_neg hg, if_neg hp, if_pos hc]
          simp [errResp, emptyResp, hc]
        · unfold handleCheck
          rw [if_neg hg, if_neg hp, if_pos hc]
          intro hok
          simp [errResp, emptyResp] at hok
      · have hpt : env.projectOk = true := by
          cases henv : env.projectOk
          · exact absurd henv hp
          · rfl
        refine ⟨fun hg2 => absurd hg2 hg, ?_, ?_⟩
        · unfold handleCheck
          rw [if_neg hg, if_neg hp, if_neg hc]
          simp [okResp, emptyResp, hg, hc, hpt]
        · unfold handleCheck
          rw [if_neg hg, if_neg hp, if_neg hc]
          exact fun _ => ⟨rfl, rfl⟩

/-- Witness for the amended C5: a `CHECK` on a `RUNNING` instance with a
configured check command is accepted, runs in `CHECKING`, and reverts to
`WAITING`. -/
theorem check_guard_and_accept_witness :
    (handleCheck checkEnvGood sampleLive).resp.ok = true ∧
    (handleCheck checkEnvGood sampleLive).mid = CHECKING ∧
    (handleCheck checkEnvGood sampleLive).final = WAITING := by
  have h := check_guard_and_accept checkEnvGood sampleLive
  have hok : (handleCheck checkEnvGood sampleLive).resp.ok = true :=
    h.2.1.mpr ⟨by decide, rfl, by decide⟩
  exact ⟨hok, h.2.2 hok⟩

/-- Claim C3: `FINISH` on an instance in terminal state `EXITED`,
`CRASHED` or `KILLED` promotes the state to `FINISHED`, persists it,
responds `OK` carrying the worktree directory and branch, and then runs
the configured finish commands; on an instance already `FINISHED` it
responds `OK` with worktree and branch and does not run the finish
commands. -/
theorem finish_promotes_terminal (env : FinishEnv) (now status : Nat)
    (i : Instance) (hp : env.projectOk = true) :
    ((i.state = EXITED ∨ i.state = CRASHED ∨ i.state = KILLED) →
      (handleFinish env now status i).inst.state = FINISHED ∧
      (handleFinish env now status i).persisted = true ∧
      (handleFinish env now status i).resp = okWB i.WorktreeDir i.Branch ∧
      (handleFinish env now status i).out =
        runFinishCmds env i.Branch env.finishCmds) ∧
    (i.state = FINISHED →
      (handleFinish env now status i).resp = okWB i.WorktreeDir i.Branch ∧
      (handleFinish env now status i).out = []) := by
  constructor
  · rintro (h | h | h) <;> simp [handleFinish, h, finishTail, hp]
  · intro h
    simp [handleFinish, h]

/-- Witness for C3 at a concrete `EXITED` instance. -/
theorem finish_promotes_terminal_witness :
    (handleFinish envAllOk 30 0 exitedInst).inst.state = FINISHED ∧
    (handleFinish envAllOk 30 0 exitedInst).persisted = true ∧
    (handleFinish envAllOk 30 0 exitedInst).resp =
      okWB exitedInst.WorktreeDir exitedInst.Branch := by
  have h :=
    (finish_promotes_terminal envAllOk 30 0 exitedInst rfl).1 (Or.inl rfl)
  exact ⟨h.1, h.2.1, h.2.2.1⟩

/-- Claim C7: after `FINISH` acknowledges, the configured finish commands
run in order, each preceded by the echo line for the command with every
occurrence of the branch placeholder replaced by the instance's branch;
when every command succeeds all of them run, the first failing command
ends the sequence with an error line and no later command runs; and the
instance's state is `FINISHED` after `handleFinish` no matter what the
commands do. -/
theorem finish_commands_semantics (env : FinishEnv) (branch : String) :
    (∀ cmds, (∀ c ∈ cmds, env.execOk (expandBranch branch c) = true) →
      runFinishCmds env branch cmds =
        cmds.flatMap (fun c =>
          [echoLine (expandBranch branch c),
           env.cmdOutput (expandBranch branch c)])) ∧
    (∀ pre c post,
      (∀ c2 ∈ pre, env.execOk (expandBranch branch c2) = true) →
      env.execOk (expandBranch branch c) = false →
      runFinishCmds env branch (pre ++ c :: post) =
        pre.flatMap (fun c2 =>
          [echoLine (expandBranch branch c2),
           env.cmdOutput (expandBranch branch c2)]) ++
        [echoLine (expandBranch branch c),
         env.cmdOutput (expandBranch branch c),
         errorLine env (expandBranch branch c)]) ∧
    (∀ now status i, (handleFinish env now status i).inst.state = FINISHED) := by
  refine ⟨?_, ?_, ?_⟩
  · intro cmds hall
    induction cmds with
    | nil => rfl
    | cons c rest ih =>
      have hc := hall c (List.mem_cons_self c rest)
      have hrest := fun c2 hc2 => hall c2 (List.mem_cons_of_mem c hc2)
      simp [runFinishCmds, hc, ih hrest]
  · intro pre c post hpre hc
    induction pre with
    | nil =>
      simp [runFinishCmds, hc]
    | cons c2 rest ih =>
      have h2 := hpre c2 (List.mem_cons_self c2 rest)
      have hrest := fun c3 hc3 => hpre c3 (List.mem_cons_of_mem c2 hc3)
      simp only [List.cons_append, runFinishCmds, h2, if_pos]
      simp [ih hrest]
  · intro now status i
    cases hs : i.state <;>
      simp [handleFinish, hs, finishTail, observeExit, Instance.destroy]

/-- Witness for C7: with one configured command that fails, the output is
the echo line, the command's output, and the error line; the instance is
left `FINISHED`. -/
theorem finish_commands_semantics_witness :
    runFinishCmds envAllFail "main" ["git push"] =
      [echoLine (expandBranch "main" ("git push")),
       envAllFail.cmdOutput (expandBranch "main" ("git push")),
       errorLine envAllFail (expandBranch "main" ("git push"))] ∧
    (handleFinish envAllFail 30 0 exitedInst).inst.state = FINISHED := by
  have h := finish_commands_semantics envAllFail "main"
  refine ⟨?_, h.2.2 30 0 exitedInst⟩
  have h2 := h.2.1 [] ("git push") [] (by simp) rfl
  simpa using h2

/-- The hex encoding of a byte list has two characters per byte. -/
theorem hexEncodeToString_length (bs : List Nat) :
    (hexEncodeToString bs).length = 2 * bs.length := by
  induction bs with
  | nil => rfl
  | cons b t ih =>
    simp only [hexEncodeToString, String.length_mk, List.flatMap_cons,
      List.length_append, List.length_cons, List.length_nil] at ih ⊢
    omega

set_option maxRecDepth 10000 in
/-- Claim C4: starting from an empty registry and registering each
allocated ID before the next allocation, the first 35 IDs are
`1`..`9` then `a`..`z` in order; the 36th allocated ID is `11`, of
length 2, from the two-character product pool; and once every one- and
two-character combination is taken, the allocator returns the hex
encoding of the 4 random bytes (8 hex characters). -/
theorem id_allocation (taken : List String) (rnd : List Nat) :
    allocFrom [] [] 35 = idAlphabet ∧
    allocFrom [] [] 36 = idAlphabet ++ ["11"] ∧
    ("11" : String).length = 2 ∧
    ((∀ id ∈ idAlphabet, id ∈ taken) → (∀ id ∈ twoCharIDs, id ∈ taken) →
      nextInstanceID taken rnd = hexEncodeToString rnd) ∧
    (rnd.length = 4 → (hexEncodeToString rnd).length = 8) := by
  refine ⟨by decide, by decide, rfl, ?_, ?_⟩
  · intro hall1 hall2
    unfold nextInstanceID
    have h1 : idAlphabet.find? (fun id => !(taken.contains id)) = none := by
      rw [List.find?_eq_none]
      intro x hx
      simpa using hall1 x hx
    have h2 : twoCharIDs.find? (fun id => !(taken.contains id)) = none := by
      rw [List.find?_eq_none]
      intro x hx
      simpa using hall2 x hx
    rw [h1, h2]
  · intro h4
    rw [hexEncodeToString_length, h4]

/-- Witness for C4: with every one- and two-character ID taken, the
allocator returns the hex encoding of the given 4 bytes. -/
theorem id_allocation_witness :
    nextInstanceID (idAlphabet ++ twoCharIDs) [222, 173, 190, 239] =
      hexEncodeToString [222, 173, 190, 239] ∧
    (hexEncodeToString [222, 173, 190, 239]).length = 8 := by
  have h := id_allocation (idAlphabet ++ twoCharIDs) [222, 173, 190, 239]
  exact ⟨h.2.2.2.1 (fun id hid => List.mem_append.mpr (Or.inl hid))
      (fun id hid => List.mem_append.mpr (Or.inr hid)),
    h.2.2.2.2 rfl⟩

/-- Claim C6: `LIST` responds `OK` with the instance summaries, a
permutation of the registry's summaries sorted by creation time
ascending; a summary's state is `WAITING` in place of `RUNNING` exactly
when the instance has produced no output for more than 2 seconds, and
every non-`RUNNING` state is reported unchanged regardless of idle
time. -/
theorem list_sorted_and_promotion (now : Nat) (reg : List Instance) :
    (handleList now reg).ok = true ∧
    (handleList now reg).instances.Perm (reg.map (Instance.Info now)) ∧
    (handleList now reg).instances.Pairwise
      (fun a b => a.CreatedAt ≤ b.CreatedAt) ∧
    (∀ i ∈ reg, i.state = RUNNING →
      (Instance.Info now i).State =
        (if now - i.lastOutputTime > 2000 then WAITING else RUNNING)) ∧
    (∀ i ∈ reg, i.state ≠ RUNNING → (Instance.Info now i).State = i.state) := by
  refine ⟨rfl, ?_, ?_, ?_, ?_⟩
  · exact List.mergeSort_perm (reg.map (Instance.Info now)) _
  · have htrans : ∀ a b c : InstanceInfo,
        decide (a.CreatedAt ≤ b.CreatedAt) = true →
        decide (b.CreatedAt ≤ c.CreatedAt) = true →
        decide (a.CreatedAt ≤ c.CreatedAt) = true := by
      intro a b c h1 h2
      simp only [decide_eq_true_eq] at h1 h2 ⊢
      omega
    have htotal : ∀ a b : InstanceInfo,
        (decide (a.CreatedAt ≤ b.CreatedAt) ||
          decide (b.CreatedAt ≤ a.CreatedAt)) = true := by
      intro a b
      simp only [Bool.or_eq_true, decide_eq_true_eq]
      omega
    have hs := @List.sorted_mergeSort InstanceInfo
      (fun a b => decide (a.CreatedAt ≤ b.CreatedAt)) htrans htotal
      (reg.map (Instance.Info now))
    exact hs.imp (fun h => by simpa using h)
  · intro i _ h
    by_cases hc : now - i.lastOutputTime > 2000 <;>
      simp [Instance.Info, h, hc]
  · intro i _ h
    simp [Instance.Info, h]

/-- An instance created later than `sampleLive`, already `EXITED`. -/
def lateInst : Instance :=
  { exitedInst with ID := "2", CreatedAt := 50 }

/-- Witness for C6: an idle `RUNNING` instance is reported `WAITING`, an
`EXITED` one unchanged, and the response is a sorted permutation of the
two summaries. -/
theorem list_sorted_and_promotion_witness :
    (handleList 5000 [lateInst, sampleLive]).ok = true ∧
    (handleList 5000 [lateInst, sampleLive]).instances.Perm
      ([lateInst, sampleLive].map (Instance.Info 5000)) ∧
    (Instance.Info 5000 sampleLive).State = WAITING ∧
    (Instance.Info 5000 lateInst).State = EXITED := by
  have h := list_sorted_and_promotion 5000 [lateInst, sampleLive]
  refine ⟨h.1, h.2.1, ?_, ?_⟩
  · have h3 := h.2.2.2.1 sampleLive (by simp) rfl
    rw [h3]
    decide
  · exact h.2.2.2.2 lateInst (by simp) (by decide)

/-- Reading a written frame (with anything appended after it) recovers the
type byte modulo 256, the payload, and the appended remainder. -/
theorem readFrame_writeFrame (t : Nat) (p extra : List Nat)
    (h : p.length < 4294967296) :
    ReadFrame (WriteFrame t p ++ extra) = some (t % 256, (p, extra)) := by
  unfold WriteFrame ReadFrame be32 fromBE32
  simp only [List.cons_append, List.append_assoc]
  have hlen : ((p.length / 16777216 % 256 * 256 + p.length / 65536 % 256) *
      256 + p.length / 256 % 256) * 256 + p.length % 256 = p.length := by
    omega
  rw [hlen, if_pos (by simp)]
  simp [List.take_left, List.drop_left]

/-- Claim C9: attach framing round-trips — writing a frame (one type byte,
big-endian 32-bit length, payload) and reading it back yields the same
type and payload with nothing left over; writing two frames and then
reading twice yields both frames in the order written. -/
theorem frame_roundtrip (t1 t2 : Nat) (p1 p2 : List Nat)
    (h1 : t1 < 256) (h2 : t2 < 256)
    (hp1 : p1.length < 4294967296) (hp2 : p2.length < 4294967296) :
    ReadFrame (WriteFrame t1 p1) = some (t1, (p1, [])) ∧
    ReadFrame (WriteFrame t1 p1 ++ WriteFrame t2 p2) =
      some (t1, (p1, WriteFrame t2 p2)) ∧
    ReadFrame (WriteFrame t2 p2) = some (t2, (p2, [])) := by
  have e1 := readFrame_writeFrame t1 p1 [] hp1
  have e2 := readFrame_writeFrame t1 p1 (WriteFrame t2 p2) hp1
  have e3 := readFrame_writeFrame t2 p2 [] hp2
  rw [List.append_nil] at e1 e3
  rw [Nat.mod_eq_of_lt h1] at e1 e2
  rw [Nat.mod_eq_of_lt h2] at e3
  exact ⟨e1, e2, e3⟩

/-- Witness for C9 at concrete frames (type 1 with payload, type 3
without). -/
theorem frame_roundtrip_witness :
    ReadFrame (WriteFrame 1 [104, 105]) = some (1, ([104, 105], [])) ∧
    ReadFrame (WriteFrame 1 [104, 105] ++ WriteFrame 3 []) =
      some (1, ([104, 105], WriteFrame 3 [])) ∧
    ReadFrame (WriteFrame 3 []) = some (3, ([], [])) :=
  frame_roundtrip 1 3 [104, 105] [] (by decide) (by decide) (by decide)
    (by decide)

/-- `cutEq` splits at the first `'='`: the pieces reassemble to the line
and the key piece holds no `'='`. -/
theorem cutEq_eq_some (l a b : List Char) (h : cutEq l = some (a, b)) :
    l = a ++ '=' :: b ∧ ¬ '=' ∈ a := by
  induction l generalizing a b with
  | nil => simp [cutEq] at h
  | cons c rest ih =>
    by_cases hc : c = '='
    · subst hc
      simp [cutEq] at h
      obtain ⟨rfl, rfl⟩ := h
      simp
    · simp only [cutEq, if_neg hc] at h
      cases h2 : cutEq rest with
      | none =>
        rw [h2] at h
        simp at h
      | some ab =>
        obtain ⟨a2, b2⟩ := ab
        rw [h2] at h
        simp at h
        obtain ⟨rfl, rfl⟩ := h
        obtain ⟨he, hm⟩ := ih a2 b2 h2
        refine ⟨by simp [he], ?_⟩
        simp only [List.mem_cons]
        rintro (heq | hmem)
        · exact hc heq.symm
        · exact hm hmem

/-- Every character of the trimmed line occurs in the raw line. -/
theorem mem_trimSpace (x : Char) (l : List Char) (h : x ∈ trimSpace l) :
    x ∈ l := by
  unfold trimSpace at h
  have h1 : x ∈ l.dropWhile isSpaceGo :=
    List.Sublist.mem h (List.IsPrefix.sublist (List.rdropWhile_prefix _ _))
  exact List.Sublist.mem h1 (List.dropWhile_sublist isSpaceGo)

/-- Trimming a line that starts with `'#'` keeps it non-empty and keeps
`'#'` as its first character. -/
theorem trimSpace_head_hash (t : List Char) :
    trimSpace ('#' :: t) ≠ [] ∧ (trimSpace ('#' :: t)).head? = some '#' := by
  unfold trimSpace
  have hd : ('#' :: t).dropWhile isSpaceGo = '#' :: t := by
    rw [List.dropWhile_cons]
    simp [isSpaceGo]
  rw [hd]
  have hne : List.rdropWhile isSpaceGo ('#' :: t) ≠ [] := by
    rw [Ne, List.rdropWhile_eq_nil_iff]
    push_neg
    exact ⟨'#', by simp, by decide⟩
  obtain ⟨s, hs⟩ := List.rdropWhile_prefix isSpaceGo ('#' :: t)
  cases hr : List.rdropWhile isSpaceGo ('#' :: t) with
  | nil => exact absurd hr hne
  | cons c rs =>
    rw [hr] at hs
    simp only [List.cons_append, List.cons.injEq] at hs
    exact ⟨by simp, by simp [hs.1]⟩

/-- A line whose first character is `'#'` contributes nothing. -/
theorem loadLine_comment (env : List (List Char × List Char))
    (raw : List Char) (h : raw.head? = some '#') : loadLine env raw = env := by
  cases raw with
  | nil => simp at h
  | cons c t =>
    simp only [List.head?_cons, Option.some.injEq] at h
    subst h
    have hh := trimSpace_head_hash t
    simp [loadLine, hh.2]

/-- A line that trims to nothing contributes nothing. -/
theorem loadLine_blank (env : List (List Char × List Char))
    (raw : List Char) (h : trimSpace raw = []) : loadLine env raw = env := by
  simp [loadLine, h]

/-- A line without `'='` contributes nothing. -/
theorem loadLine_noeq (env : List (List Char × List Char))
    (raw : List Char) (h : ¬ '=' ∈ raw) : loadLine env raw = env := by
  cases hcut : cutEq (trimSpace raw) with
  | none =>
    by_cases hc : (trimSpace raw = [] ∨ (trimSpace raw).head? = some '#')
    · simp [loadLine, hc]
    · simp [loadLine, hc, hcut]
  | some kv =>
    obtain ⟨k, v⟩ := kv
    have hsplit := (cutEq_eq_some _ _ _ hcut).1
    exfalso
    apply h
    apply mem_trimSpace '=' raw
    rw [hsplit]
    simp

/-- Claim C8: the dotenv loader yields an empty map (not an error) for a
nonexistent file; a line starting with `#`, a blank (whitespace-only)
line, or a line without `'='` produces no entry — also in context within
any file; every other line is split at the first `'='`, with key and
value whitespace-trimmed, into a map entry. -/
theorem envfile_semantics :
    (envfileLoad none = []) ∧
    (∀ env raw, raw.head? = some '#' → loadLine env raw = env) ∧
    (∀ env raw, trimSpace raw = [] → loadLine env raw = env) ∧
    (∀ env raw, ¬ '=' ∈ raw → loadLine env raw = env) ∧
    (∀ env raw k v,
      cutEq (trimSpace raw) = some (k, v) →
      trimSpace raw ≠ [] → (trimSpace raw).head? ≠ some '#' →
      loadLine env raw = setKV env (trimSpace k) (trimSpace v) ∧
      trimSpace raw = k ++ '=' :: v ∧ ¬ '=' ∈ k) ∧
    (∀ pre post raw,
      (raw.head? = some '#' ∨ trimSpace raw = [] ∨ ¬ '=' ∈ raw) →
      envfileLoad (some (pre ++ raw :: post)) =
        envfileLoad (some (pre ++ post))) := by
  refine ⟨rfl, loadLine_comment, loadLine_blank, loadLine_noeq, ?_, ?_⟩
  · intro env raw k v hcut hne hhash
    have hcond : ¬(trimSpace raw = [] ∨ (trimSpace raw).head? = some '#') := by
      push_neg
      exact ⟨hne, hhash⟩
    refine ⟨?_, (cutEq_eq_some _ _ _ hcut).1, (cutEq_eq_some _ _ _ hcut).2⟩
    simp [loadLine, hcond, hcut]
  · intro pre post raw hskip
    have hline : ∀ env, loadLine env raw = env := by
      intro env
      rcases hskip with h | h | h
      · exact loadLine_comment env raw h
      · exact loadLine_blank env raw h
      · exact loadLine_noeq env raw h
    simp only [envfileLoad, List.foldl_append, List.foldl_cons]
    rw [hline (List.foldl loadLine [] pre)]

/-- Witness for C8: a comment line is dropped from a concrete file and a
concrete line without `'='` contributes nothing. -/
theorem envfile_semantics_witness :
    envfileLoad (some [("# c").data, ("A=1").data]) =
      envfileLoad (some [("A=1").data]) ∧
    loadLine [] (("NOEQUALS").data) = [] := by
  have h := envfile_semantics
  exact ⟨h.2.2.2.2.2 [] [("A=1").data] (("# c").data) (Or.inl (by decide)),
    h.2.2.2.1 [] (("NOEQUALS").data) (by decide)⟩

end Grove
